import Mathlib

/-!
Shallow embedding of the metrics instrumentation layer of the calculator
service: the gRPC method classifier, the two error-taxonomy mappers, the
domain metrics recorder (`RecordCalculation`), and the unary server
interceptor (`UnaryServerInterceptor`), modelled as pure functions that
emit a trace of metric-sink events.

Sources embedded:
- internal/infrastructure/http/metrics_handler.go (middleware part):
  `isCalculationMethod`, `extractMethodName`, `splitMethod`, `splitService`,
  `getStatusCode`, `getCalculationType`, `getErrorType`,
  `getCurrentActiveCalculations`, `extractBusinessMetrics`,
  `recordBusinessMetrics`, `UnaryServerInterceptor`.
- internal/domain/metrics/calculator_metrics.go: `CalculationResult`,
  `RecordCalculation`.

Go `float64` values (weight, hydration, accuracy) are modelled as `Rat`:
the code only compares them to zero, never does arithmetic on them.
Go `time.Duration` is modelled as `Int` (nanoseconds). Go `error` values
are modelled by the `GoError` inductive: `nil`, a gRPC status error with a
code, or a generic unstructured error; `status.FromError` is modelled by
`statusFromError` following the grpc-go contract (nil ↦ (OK, true),
status error ↦ (code, true), other error ↦ (Unknown, false)).
-/

/-- gRPC status codes that the middleware distinguishes; `other` stands
for all remaining codes, which both switches send to their default arm. -/
inductive GrpcCode where
  | ok
  | invalidArgument
  | notFound
  | internal
  | unavailable
  | deadlineExceeded
  | unknown
  | other
deriving DecidableEq

/-- A Go `error` value as seen by the middleware: `nil`, a structured
gRPC status error, or a generic unstructured error. -/
inductive GoError where
  | nil
  | statusError (code : GrpcCode)
  | generic
deriving DecidableEq

/-- `status.FromError`: returns the status code and whether the error was
a structured gRPC status (grpc-go returns `ok = true` for `nil`). -/
def statusFromError : GoError → GrpcCode × Bool
  | GoError.nil => (GrpcCode.ok, true)
  | GoError.statusError code => (code, true)
  | GoError.generic => (GrpcCode.unknown, false)

/-- Events emitted to the two metric-sink capability interfaces.  The
first nine constructors are the domain capability
(`CalculatorMetrics`), the last two the technical capability
(`PrometheusMetrics`). -/
inductive MEvent where
  | incTotal (calculationType : String)
  | recDuration (calculationType : String) (duration : Int)
  | setActive (count : Int)
  | incError (calculationType errorType : String)
  | recAccuracy (accuracy : Rat)
  | incIngredientValidation (ingredient : String) (valid : Bool)
  | recWeight (weight : Rat)
  | recHydration (hydration : Rat)
  | incRecipeType (recipeType : String)
  | incGRPC (method status : String)
  | recGRPCDuration (method : String) (duration : Int)
deriving DecidableEq

/-- The fixed closed set of business method addresses
(`calculationMethods` in `isCalculationMethod`). -/
def calculationMethods : List String :=
  ["/calculator.CalculatorService/CalculateDough",
   "/calculator.CalculatorService/CalculateIngredients",
   "/calculator.CalculatorService/OptimizeRecipe"]

/-- `isCalculationMethod`: exact-string membership of the full method
address in the fixed list. -/
def isCalculationMethod (fullMethod : String) : Bool :=
  calculationMethods.any (fun mth => fullMethod == mth)

/-- `splitMethod`'s scan: find the LAST slash; `some (pre, post)` means
the input is `pre ++ '/' :: post` with no slash in `post`. -/
def splitMethodAux : List Char → Option (List Char × List Char)
  | [] => none
  | c :: cs =>
    match splitMethodAux cs with
    | some (pre, post) => some (c :: pre, post)
    | none => if c = '/' then some ([], cs) else none

/-- `splitMethod`: split on the last slash into two parts, or return the
whole string as a one-element list when there is no slash. -/
def splitMethod (s : List Char) : List (List Char) :=
  match splitMethodAux s with
  | some (pre, post) => [pre, post]
  | none => [s]

/-- `splitService`'s loop: collect the nonempty runs between dots; `cur`
is the current run, reversed. -/
def splitServiceAux (cur : List Char) : List Char → List (List Char)
  | [] => if cur = [] then [] else [cur.reverse]
  | c :: cs =>
    if c = '.' then
      if cur = [] then splitServiceAux [] cs
      else cur.reverse :: splitServiceAux [] cs
    else splitServiceAux (c :: cur) cs

/-- `splitService`: split on dots, dropping empty segments. -/
def splitService (s : List Char) : List (List Char) :=
  splitServiceAux [] s

/-- `extractMethodName`: from `"/package.Service/Method"` return
`"Method"`; every other shape degrades to `"unknown"`. -/
def extractMethodName (fullMethod : String) : String :=
  match fullMethod.data with
  | [] => "unknown"
  | c :: rest =>
    if c = '/' then
      match splitMethod rest with
      | [p0, p1] =>
        if 2 ≤ (splitService p0).length then String.mk p1 else "unknown"
      | _ => "unknown"
    else "unknown"

/-- `getStatusCode`: outcome → technical status label. -/
def getStatusCode (err : GoError) : String :=
  match err with
  | GoError.nil => "success"
  | _ =>
    match statusFromError err with
    | (code, true) =>
      match code with
      | GrpcCode.ok => "success"
      | GrpcCode.invalidArgument => "invalid_argument"
      | GrpcCode.notFound => "not_found"
      | GrpcCode.internal => "internal_error"
      | GrpcCode.unavailable => "unavailable"
      | _ => "error"
    | (_, false) => "error"

/-- `getCalculationType`: business address → calculation-type label,
default `"unknown_calculation"`. -/
def getCalculationType (fullMethod : String) : String :=
  if fullMethod == "/calculator.CalculatorService/CalculateDough" then
    "dough_calculation"
  else if fullMethod == "/calculator.CalculatorService/CalculateIngredients" then
    "ingredient_calculation"
  else if fullMethod == "/calculator.CalculatorService/OptimizeRecipe" then
    "recipe_optimization"
  else
    "unknown_calculation"

/-- `getErrorType`: outcome → domain error-kind label. -/
def getErrorType (err : GoError) : String :=
  match statusFromError err with
  | (code, true) =>
    match code with
    | GrpcCode.invalidArgument => "invalid_input"
    | GrpcCode.notFound => "recipe_not_found"
    | GrpcCode.internal => "calculation_error"
    | GrpcCode.unavailable => "service_unavailable"
    | GrpcCode.deadlineExceeded => "timeout"
    | _ => "unknown_error"
  | (_, false) => "unknown_error"

/-- `getCurrentActiveCalculations`: the source's placeholder that always
returns 0 instead of tracking the real in-flight count. -/
def getCurrentActiveCalculations : Int := 0

/-- `BusinessMetrics`: metrics extracted from a gRPC response. -/
structure BusinessMetrics where
  weight : Rat
  hydration : Rat
  accuracy : Rat
  ingredients : List String
  recipeType : String

/-- `extractBusinessMetrics`: the source's stub, returns `nil` for every
response. -/
def extractBusinessMetrics {α : Type} (resp : α) : Option BusinessMetrics :=
  none

/-- `recordBusinessMetrics`: conditional recording of an extracted
`BusinessMetrics` value. -/
def recordBusinessMetrics (business : BusinessMetrics) : List MEvent :=
  (if business.weight > 0 then [MEvent.recWeight business.weight] else []) ++
  (if business.hydration > 0 then [MEvent.recHydration business.hydration] else []) ++
  (if business.accuracy > 0 then [MEvent.recAccuracy business.accuracy] else []) ++
  (if business.recipeType ≠ "" then [MEvent.incRecipeType business.recipeType] else []) ++
  business.ingredients.map (fun ingredient => MEvent.incIngredientValidation ingredient true)

/-- Result of a run of the unary interceptor: the returned response and
error, and the trace of metric events emitted, in program order. -/
structure InterceptResult (α : Type) where
  resp : α
  err : GoError
  events : List MEvent

/-- `UnaryServerInterceptor`: wraps one handler invocation.  The handler
is a thunk returning the Go `(resp, err)` pair; `duration` is the
elapsed time measured around the call.  Events appear in the order the
Go code performs them. -/
def unaryServerInterceptor {α : Type} (fullMethod : String)
    (handler : Unit → α × GoError) (duration : Int) : InterceptResult α :=
  let preEvents : List MEvent :=
    if isCalculationMethod fullMethod then
      [MEvent.setActive (getCurrentActiveCalculations + 1)]
    else []
  let r := handler ()
  let resp := r.1
  let err := r.2
  let techEvents : List MEvent :=
    [MEvent.incGRPC (extractMethodName fullMethod) (getStatusCode err),
     MEvent.recGRPCDuration (extractMethodName fullMethod) duration]
  let bizEvents : List MEvent :=
    if isCalculationMethod fullMethod then
      MEvent.setActive (getCurrentActiveCalculations - 1) ::
        (if err ≠ GoError.nil then
          [MEvent.incError (getCalculationType fullMethod) (getErrorType err)]
        else
          [MEvent.incTotal (getCalculationType fullMethod),
           MEvent.recDuration (getCalculationType fullMethod) duration] ++
            (match extractBusinessMetrics resp with
             | some businessMetrics => recordBusinessMetrics businessMetrics
             | none => []))
    else []
  ⟨resp, err, preEvents ++ techEvents ++ bizEvents⟩

/-- `CalculationResult` from calculator_metrics.go. -/
structure CalculationResult where
  type : String
  duration : Int
  success : Bool
  errorType : String
  weight : Rat
  hydration : Rat
  accuracy : Rat
  ingredientsUsed : List String

/-- `MetricsRecorder.RecordCalculation`: the conditional-recording
policy applied to one `CalculationResult`. -/
def RecordCalculation (result : CalculationResult) : List MEvent :=
  [MEvent.incTotal result.type,
   MEvent.recDuration result.type result.duration] ++
  (if !result.success then
    [MEvent.incError result.type result.errorType]
  else
    (if result.weight > 0 then [MEvent.recWeight result.weight] else []) ++
    (if result.hydration > 0 then [MEvent.recHydration result.hydration] else []) ++
    (if result.accuracy > 0 then [MEvent.recAccuracy result.accuracy] else []) ++
    result.ingredientsUsed.map
      (fun ingredient => MEvent.incIngredientValidation ingredient true))

/-- The effect of one event on the in-flight gauge: `SetActiveCalculations`
overwrites its value, everything else leaves it alone. -/
def applyGaugeEvent (g : Int) : MEvent → Int
  | MEvent.setActive n => n
  | _ => g

/-- Gauge value after a trace of events, starting from `g`. -/
def gaugeAfter (g : Int) (events : List MEvent) : Int :=
  events.foldl applyGaugeEvent g

/-- Event-classification predicates used to count sink operations. -/
def isIncTotalEvt : MEvent → Bool
  | MEvent.incTotal _ => true
  | _ => false

def isRecDurationEvt : MEvent → Bool
  | MEvent.recDuration _ _ => true
  | _ => false

def isIncErrorEvt : MEvent → Bool
  | MEvent.incError _ _ => true
  | _ => false

def isRecWeightEvt : MEvent → Bool
  | MEvent.recWeight _ => true
  | _ => false

def isRecHydrationEvt : MEvent → Bool
  | MEvent.recHydration _ => true
  | _ => false

def isRecAccuracyEvt : MEvent → Bool
  | MEvent.recAccuracy _ => true
  | _ => false

def isIngredientValidationEvt : MEvent → Bool
  | MEvent.incIngredientValidation _ _ => true
  | _ => false

def isRecipeTypeEvt : MEvent → Bool
  | MEvent.incRecipeType _ => true
  | _ => false

/-- True on events of the domain capability interface, false on the two
technical events. -/
def isDomainEvt : MEvent → Bool
  | MEvent.incGRPC _ _ => false
  | MEvent.recGRPCDuration _ _ => false
  | _ => true

/-- True on the five quality/business sinks (weight, hydration,
accuracy, ingredient validation, recipe type). -/
def isQualityEvt (e : MEvent) : Bool :=
  isRecWeightEvt e || isRecHydrationEvt e || isRecAccuracyEvt e ||
    isIngredientValidationEvt e || isRecipeTypeEvt e


/-- A failed calculation result whose quality fields carry non-zero
values, for the C4 witness. -/
def failedResult : CalculationResult :=
  ⟨"dough_calculation", 9, false, "invalid_input", 500, 65, 95, ["flour", "water"]⟩

/-- The spec's scenario: success with weight=0, hydration=65.0,
accuracy=0, ingredients=["flour"]. -/
def scenarioResult : CalculationResult :=
  ⟨"dough_calculation", 5, true, "", 0, 65, 0, ["flour"]⟩

/-! ### Helper lemmas -/

theorem countP_map_eq_zero {β : Type} (f : β → MEvent) (p : MEvent → Bool)
    (hf : ∀ b, p (f b) = false) (l : List β) : (l.map f).countP p = 0 := by
  induction l with
  | nil => rfl
  | cons b bs ih => simp [List.countP_cons, hf, ih]

theorem filter_map_ingredientEvents (l : List String) :
    (l.map (fun i => MEvent.incIngredientValidation i true)).filter
        isIngredientValidationEvt =
      l.map (fun i => MEvent.incIngredientValidation i true) := by
  induction l with
  | nil => rfl
  | cons a l ih => simp [List.filter_cons, isIngredientValidationEvt, ih]

/-! ### Claims -/

/-- C1: the spec claims the in-flight gauge is mutated in matched
increment/decrement pairs, never goes negative, and returns to its
pre-call value.  The code instead calls `SetActiveCalculations` with
`getCurrentActiveCalculations() ± 1` where the helper is a stub that
always returns 0, so a single successful business call drives the gauge
from 0 to 1 and then to -1: negative, and not the pre-call value. -/
theorem claim1_gauge_goes_negative :
    gaugeAfter 0 (unaryServerInterceptor "/calculator.CalculatorService/CalculateDough"
        (fun _ => ((0 : Nat), GoError.nil)) 5).events = -1 ∧
    gaugeAfter 0 (unaryServerInterceptor "/calculator.CalculatorService/CalculateDough"
        (fun _ => ((0 : Nat), GoError.nil)) 5).events < 0 := by
  decide

/-- C2 counterexample: a failed business call through the interceptor
increments the total-count counter zero times and records zero domain
duration observations, refuting "for every completed business call,
success or failure, ... incremented exactly once". -/
theorem claim2_counterexample :
    (unaryServerInterceptor "/calculator.CalculatorService/CalculateDough"
        (fun _ => ((0 : Nat), GoError.statusError GrpcCode.invalidArgument)) 7).events.countP
        isIncTotalEvt = 0 ∧
    (unaryServerInterceptor "/calculator.CalculatorService/CalculateDough"
        (fun _ => ((0 : Nat), GoError.statusError GrpcCode.invalidArgument)) 7).events.countP
        isRecDurationEvt = 0 := by
  decide

/-- C2 (amended): through the interceptor, the total-count counter and
the domain duration histogram each receive exactly one update for a
successful business call and none for a failed one (which instead gets
exactly one error-counter increment); `RecordCalculation` itself
unconditionally emits exactly one total-count increment and one duration
observation per invocation. -/
theorem claim2_amended {α : Type} (m : String) (h : Unit → α × GoError) (d : Int)
    (r : CalculationResult) :
    (unaryServerInterceptor m h d).events.countP isIncTotalEvt =
      (if isCalculationMethod m = true ∧ (h ()).2 = GoError.nil then 1 else 0) ∧
    (unaryServerInterceptor m h d).events.countP isRecDurationEvt =
      (if isCalculationMethod m = true ∧ (h ()).2 = GoError.nil then 1 else 0) ∧
    (unaryServerInterceptor m h d).events.countP isIncErrorEvt =
      (if isCalculationMethod m = true ∧ (h ()).2 ≠ GoError.nil then 1 else 0) ∧
    (RecordCalculation r).countP isIncTotalEvt = 1 ∧
    (RecordCalculation r).countP isRecDurationEvt = 1 := by
  have hTot : ∀ l : List String,
      (l.map (fun i => MEvent.incIngredientValidation i true)).countP isIncTotalEvt = 0 :=
    countP_map_eq_zero _ _ (fun _ => rfl)
  have hDur : ∀ l : List String,
      (l.map (fun i => MEvent.incIngredientValidation i true)).countP isRecDurationEvt = 0 :=
    countP_map_eq_zero _ _ (fun _ => rfl)
  refine ⟨?_, ?_, ?_, ?_, ?_⟩
  · by_cases hm : isCalculationMethod m = true <;>
      by_cases he : (h ()).2 = GoError.nil <;>
        simp [unaryServerInterceptor, hm, he, extractBusinessMetrics,
          List.countP_append, List.countP_cons, isIncTotalEvt]
  · by_cases hm : isCalculationMethod m = true <;>
      by_cases he : (h ()).2 = GoError.nil <;>
        simp [unaryServerInterceptor, hm, he, extractBusinessMetrics,
          List.countP_append, List.countP_cons, isRecDurationEvt]
  · by_cases hm : isCalculationMethod m = true <;>
      by_cases he : (h ()).2 = GoError.nil <;>
        simp [unaryServerInterceptor, hm, he, extractBusinessMetrics,
          List.countP_append, List.countP_cons, isIncErrorEvt]
  · by_cases hs : r.success <;>
      simp [RecordCalculation, hs, List.countP_append, List.countP_cons,
        isIncTotalEvt, hTot]
  · by_cases hs : r.success <;>
      simp [RecordCalculation, hs, List.countP_append, List.countP_cons,
        isRecDurationEvt, hDur]

/-- C7: the two error-label mappings are not isomorphic.  The technical
channel always yields one of the six labels, sending deadline-exceeded
and unstructured errors to the catch-all "error"; the domain channel
sends deadline-exceeded uniquely to "timeout" and an unstructured
generic error to "unknown_error". -/
theorem claim7_error_taxonomies :
    (∀ e : GoError, getStatusCode e ∈
      (["success", "invalid_argument", "not_found", "internal_error",
        "unavailable", "error"] : List String)) ∧
    getStatusCode (GoError.statusError GrpcCode.deadlineExceeded) = "error" ∧
    getStatusCode GoError.generic = "error" ∧
    getErrorType (GoError.statusError GrpcCode.deadlineExceeded) = "timeout" ∧
    getErrorType GoError.generic = "unknown_error" ∧
    (∀ e : GoError, getErrorType e = "timeout" ↔
      e = GoError.statusError GrpcCode.deadlineExceeded) := by
  refine ⟨?_, by decide, by decide, by decide, by decide, ?_⟩
  · intro e
    cases e with
    | nil => decide
    | generic => decide
    | statusError code => cases code <;> decide
  · intro e
    cases e with
    | nil => decide
    | generic => decide
    | statusError code => cases code <;> decide

/-- C9: the interceptor is a transparent pass-through: it returns exactly
the response value and the error that the handler returned, on both the
success and the failure path. -/
theorem claim9_transparent_passthrough {α : Type} (m : String)
    (h : Unit → α × GoError) (d : Int) :
    (unaryServerInterceptor m h d).resp = (h ()).1 ∧
    (unaryServerInterceptor m h d).err = (h ()).2 :=
  ⟨rfl, rfl⟩

/-- C10: the response-to-business-metrics extractor returns `none` for
every response, so on every execution path of the interceptor none of
the weight, hydration, accuracy, ingredient-validation or recipe-type
sinks is ever invoked. -/
theorem claim10_quality_sinks_never_invoked {α : Type} (m : String)
    (h : Unit → α × GoError) (d : Int) :
    (∀ resp : α, extractBusinessMetrics resp = none) ∧
    (unaryServerInterceptor m h d).events.countP isQualityEvt = 0 := by
  refine ⟨fun _ => rfl, ?_⟩
  by_cases hm : isCalculationMethod m = true <;>
    by_cases he : (h ()).2 = GoError.nil <;>
      simp [unaryServerInterceptor, hm, he, extractBusinessMetrics,
        List.countP_append, List.countP_cons, isQualityEvt, isRecWeightEvt,
        isRecHydrationEvt, isRecAccuracyEvt, isIngredientValidationEvt,
        isRecipeTypeEvt]

/-- C3: for every call whose full method address is not a business
address, the interceptor emits exactly the technical request counter and
duration histogram records and no domain metric operation at all. -/
theorem claim3_nonbusiness_technical_only {α : Type} (m : String)
    (h : Unit → α × GoError) (d : Int) (hm : isCalculationMethod m = false) :
    (unaryServerInterceptor m h d).events =
      [MEvent.incGRPC (extractMethodName m) (getStatusCode (h ()).2),
       MEvent.recGRPCDuration (extractMethodName m) d] ∧
    (unaryServerInterceptor m h d).events.countP isDomainEvt = 0 := by
  constructor
  · simp [unaryServerInterceptor, hm]
  · simp [unaryServerInterceptor, hm, List.countP_cons, isDomainEvt]

/-- C3 witness: the non-business address used by the repository's own
test, with a succeeding handler. -/
theorem claim3_witness :
    isCalculationMethod "/calculator.CalculatorService/GetHealth" = false ∧
    ((unaryServerInterceptor "/calculator.CalculatorService/GetHealth"
        (fun _ => ((0 : Nat), GoError.nil)) 3).events =
      [MEvent.incGRPC (extractMethodName "/calculator.CalculatorService/GetHealth")
          (getStatusCode GoError.nil),
       MEvent.recGRPCDuration (extractMethodName "/calculator.CalculatorService/GetHealth") 3] ∧
    (unaryServerInterceptor "/calculator.CalculatorService/GetHealth"
        (fun _ => ((0 : Nat), GoError.nil)) 3).events.countP isDomainEvt = 0) :=
  ⟨by decide, claim3_nonbusiness_technical_only "/calculator.CalculatorService/GetHealth"
    (fun _ => ((0 : Nat), GoError.nil)) 3 (by decide)⟩

/-- C4: for a failed `CalculationResult`, `RecordCalculation` increments
the error counter keyed by (type, error-kind) exactly once and records
none of the weight, hydration, accuracy or ingredient-validation
metrics, whatever values those fields carry. -/
theorem claim4_failure_records_error_only (r : CalculationResult)
    (hr : r.success = false) :
    RecordCalculation r =
      [MEvent.incTotal r.type, MEvent.recDuration r.type r.duration,
       MEvent.incError r.type r.errorType] ∧
    (RecordCalculation r).countP isIncErrorEvt = 1 ∧
    (RecordCalculation r).countP isRecWeightEvt = 0 ∧
    (RecordCalculation r).countP isRecHydrationEvt = 0 ∧
    (RecordCalculation r).countP isRecAccuracyEvt = 0 ∧
    (RecordCalculation r).countP isIngredientValidationEvt = 0 := by
  have hlist : RecordCalculation r =
      [MEvent.incTotal r.type, MEvent.recDuration r.type r.duration,
       MEvent.incError r.type r.errorType] := by
    simp [RecordCalculation, hr]
  refine ⟨hlist, ?_, ?_, ?_, ?_, ?_⟩ <;>
    rw [hlist] <;>
      simp [List.countP_cons, isIncErrorEvt, isRecWeightEvt, isRecHydrationEvt,
        isRecAccuracyEvt, isIngredientValidationEvt]

/-- C4 witness: `claim4_failure_records_error_only` at `failedResult`. -/
theorem claim4_witness :
    failedResult.success = false ∧
    (RecordCalculation failedResult =
      [MEvent.incTotal failedResult.type,
       MEvent.recDuration failedResult.type failedResult.duration,
       MEvent.incError failedResult.type failedResult.errorType] ∧
    (RecordCalculation failedResult).countP isIncErrorEvt = 1 ∧
    (RecordCalculation failedResult).countP isRecWeightEvt = 0 ∧
    (RecordCalculation failedResult).countP isRecHydrationEvt = 0 ∧
    (RecordCalculation failedResult).countP isRecAccuracyEvt = 0 ∧
    (RecordCalculation failedResult).countP isIngredientValidationEvt = 0) :=
  ⟨rfl, claim4_failure_records_error_only failedResult rfl⟩

/-- C5: for a successful `CalculationResult`, each of the weight,
hydration and accuracy histograms is recorded exactly when the value is
strictly positive, the ingredient-validation counter is bumped with
valid=true once per name in the ingredients list, and no error counter
is touched. -/
theorem claim5_success_conditional_recording (r : CalculationResult)
    (hr : r.success = true) :
    (RecordCalculation r).countP isRecWeightEvt = (if r.weight > 0 then 1 else 0) ∧
    (RecordCalculation r).countP isRecHydrationEvt = (if r.hydration > 0 then 1 else 0) ∧
    (RecordCalculation r).countP isRecAccuracyEvt = (if r.accuracy > 0 then 1 else 0) ∧
    (RecordCalculation r).filter isIngredientValidationEvt =
      r.ingredientsUsed.map (fun i => MEvent.incIngredientValidation i true) ∧
    (RecordCalculation r).countP isIncErrorEvt = 0 := by
  have hW : ∀ l : List String,
      (l.map (fun i => MEvent.incIngredientValidation i true)).countP isRecWeightEvt = 0 :=
    countP_map_eq_zero _ _ (fun _ => rfl)
  have hH : ∀ l : List String,
      (l.map (fun i => MEvent.incIngredientValidation i true)).countP isRecHydrationEvt = 0 :=
    countP_map_eq_zero _ _ (fun _ => rfl)
  have hA : ∀ l : List String,
      (l.map (fun i => MEvent.incIngredientValidation i true)).countP isRecAccuracyEvt = 0 :=
    countP_map_eq_zero _ _ (fun _ => rfl)
  have hE : ∀ l : List String,
      (l.map (fun i => MEvent.incIngredientValidation i true)).countP isIncErrorEvt = 0 :=
    countP_map_eq_zero _ _ (fun _ => rfl)
  refine ⟨?_, ?_, ?_, ?_, ?_⟩
  · by_cases h1 : r.weight > 0 <;>
      by_cases h2 : r.hydration > 0 <;>
        by_cases h3 : r.accuracy > 0 <;>
          simp [RecordCalculation, hr, h1, h2, h3, List.countP_append,
            List.countP_cons, isRecWeightEvt, hW]
  · by_cases h1 : r.weight > 0 <;>
      by_cases h2 : r.hydration > 0 <;>
        by_cases h3 : r.accuracy > 0 <;>
          simp [RecordCalculation, hr, h1, h2, h3, List.countP_append,
            List.countP_cons, isRecHydrationEvt, hH]
  · by_cases h1 : r.weight > 0 <;>
      by_cases h2 : r.hydration > 0 <;>
        by_cases h3 : r.accuracy > 0 <;>
          simp [RecordCalculation, hr, h1, h2, h3, List.countP_append,
            List.countP_cons, isRecAccuracyEvt, hA]
  · by_cases h1 : r.weight > 0 <;>
      by_cases h2 : r.hydration > 0 <;>
        by_cases h3 : r.accuracy > 0 <;>
          simp [RecordCalculation, hr, h1, h2, h3, List.filter_append,
            List.filter_cons, isRecWeightEvt, isRecHydrationEvt, isRecAccuracyEvt,
            isIngredientValidationEvt, filter_map_ingredientEvents]
  · by_cases h1 : r.weight > 0 <;>
      by_cases h2 : r.hydration > 0 <;>
        by_cases h3 : r.accuracy > 0 <;>
          simp [RecordCalculation, hr, h1, h2, h3, List.countP_append,
            List.countP_cons, isIncErrorEvt, hE]

/-- C5 witness: the spec's scenario — only the hydration histogram and
the "flour" valid=true counter are touched. -/
theorem claim5_witness :
    scenarioResult.success = true ∧
    ((RecordCalculation scenarioResult).countP isRecWeightEvt =
        (if scenarioResult.weight > 0 then 1 else 0) ∧
     (RecordCalculation scenarioResult).countP isRecHydrationEvt =
        (if scenarioResult.hydration > 0 then 1 else 0) ∧
     (RecordCalculation scenarioResult).countP isRecAccuracyEvt =
        (if scenarioResult.accuracy > 0 then 1 else 0) ∧
     (RecordCalculation scenarioResult).filter isIngredientValidationEvt =
        scenarioResult.ingredientsUsed.map
          (fun i => MEvent.incIngredientValidation i true) ∧
     (RecordCalculation scenarioResult).countP isIncErrorEvt = 0) ∧
    RecordCalculation scenarioResult =
      [MEvent.incTotal "dough_calculation", MEvent.recDuration "dough_calculation" 5,
       MEvent.recHydration 65, MEvent.incIngredientValidation "flour" true] :=
  ⟨rfl, claim5_success_conditional_recording scenarioResult rfl, by decide⟩

/-- C6: an address is business iff it is an exact match of one of the
three registered addresses, and the calculation-type mapping sends the
three business addresses to their canonical labels and everything else
to "unknown_calculation". -/
theorem claim6_classification (s : String) :
    (isCalculationMethod s = true ↔
      (s = "/calculator.CalculatorService/CalculateDough" ∨
       s = "/calculator.CalculatorService/CalculateIngredients" ∨
       s = "/calculator.CalculatorService/OptimizeRecipe")) ∧
    getCalculationType "/calculator.CalculatorService/CalculateDough" =
      "dough_calculation" ∧
    getCalculationType "/calculator.CalculatorService/CalculateIngredients" =
      "ingredient_calculation" ∧
    getCalculationType "/calculator.CalculatorService/OptimizeRecipe" =
      "recipe_optimization" ∧
    (isCalculationMethod s = false → getCalculationType s = "unknown_calculation") := by
  refine ⟨?_, by decide, by decide, by decide, ?_⟩
  · constructor
    · intro hs
      simp [isCalculationMethod, calculationMethods] at hs
      rcases hs with h | h | h
      · exact Or.inl h
      · exact Or.inr (Or.inl h)
      · exact Or.inr (Or.inr h)
    · intro hs
      rcases hs with h | h | h <;> simp [isCalculationMethod, calculationMethods, h]
  · intro hs
    simp [isCalculationMethod, calculationMethods] at hs
    obtain ⟨h1, h2, h3⟩ := hs
    simp [getCalculationType, h1, h2, h3]

/-- C6 witness: a same-service, different-method address is non-business
and maps to "unknown_calculation". -/
theorem claim6_witness :
    isCalculationMethod "/calculator.CalculatorService/GetStatus" = false ∧
    getCalculationType "/calculator.CalculatorService/GetStatus" =
      "unknown_calculation" :=
  ⟨by decide, (claim6_classification "/calculator.CalculatorService/GetStatus").2.2.2.2
    (by decide)⟩

/-! ### Parsing lemmas for claim C8 -/

theorem splitMethodAux_eq_none (s : List Char) :
    splitMethodAux s = none → ∀ ch ∈ s, ch ≠ '/' := by
  induction s with
  | nil => intro _ ch hch; exact absurd hch (List.not_mem_nil ch)
  | cons c cs ih =>
    intro h ch hch
    rcases hcs : splitMethodAux cs with _ | ⟨pre, post⟩
    · simp only [splitMethodAux, hcs] at h
      by_cases hc : c = '/'
      · simp [hc] at h
      · rcases List.mem_cons.mp hch with h1 | h1
        · exact h1 ▸ hc
        · exact ih hcs ch h1
    · simp [splitMethodAux, hcs] at h

theorem splitMethodAux_eq_some (s : List Char) :
    ∀ pre post, splitMethodAux s = some (pre, post) →
      s = pre ++ '/' :: post ∧ ∀ ch ∈ post, ch ≠ '/' := by
  induction s with
  | nil => intro pre post h; simp [splitMethodAux] at h
  | cons c cs ih =>
    intro pre post h
    rcases hcs : splitMethodAux cs with _ | ⟨p, q⟩
    · simp only [splitMethodAux, hcs] at h
      by_cases hc : c = '/'
      · rw [if_pos hc] at h
        simp only [Option.some.injEq, Prod.mk.injEq] at h
        obtain ⟨h1, h2⟩ := h
        subst h1
        subst h2
        subst hc
        exact ⟨rfl, splitMethodAux_eq_none cs hcs⟩
      · rw [if_neg hc] at h
        cases h
    · simp only [splitMethodAux, hcs, Option.some.injEq, Prod.mk.injEq] at h
      obtain ⟨h1, h2⟩ := h
      subst h1
      subst h2
      obtain ⟨he, hn⟩ := ih p q hcs
      exact ⟨by rw [he]; rfl, hn⟩

/-- C8: method-address parsing is total and degrades safely: for every
string, `extractMethodName` either yields the `"unknown"` sentinel or
the input has the well-formed shape `"/service/method"` with at least
two dot-separated service segments, in which case it returns the method
segment; the spec's concrete malformed inputs (empty string, no leading
slash, no second slash, service path with fewer than two dot-separated
segments) all yield `"unknown"`. -/
theorem claim8_parsing_total_and_safe (s : String) :
    (extractMethodName s = "unknown" ∨
      ∃ pre post, s.data = '/' :: (pre ++ '/' :: post) ∧
        (∀ ch ∈ post, ch ≠ '/') ∧ 2 ≤ (splitService pre).length ∧
        extractMethodName s = String.mk post) ∧
    extractMethodName "" = "unknown" ∧
    extractMethodName "InvalidMethod" = "unknown" ∧
    extractMethodName "/Method" = "unknown" ∧
    extractMethodName "/calculator/CalculateDough" = "unknown" ∧
    extractMethodName "/calculator.CalculatorService/CalculateDough" =
      "CalculateDough" := by
  refine ⟨?_, by decide, by decide, by decide, by decide, by decide⟩
  rcases hdata : s.data with _ | ⟨c, rest⟩
  · left
    simp [extractMethodName, hdata]
  · by_cases hc : c = '/'
    · subst hc
      rcases hsm : splitMethodAux rest with _ | ⟨pre, post⟩
      · left
        simp [extractMethodName, hdata, splitMethod, hsm]
      · obtain ⟨heq, hns⟩ := splitMethodAux_eq_some rest pre post hsm
        by_cases hlen : 2 ≤ (splitService pre).length
        · right
          exact ⟨pre, post, by rw [heq], hns, hlen,
            by simp [extractMethodName, hdata, splitMethod, hsm, hlen]⟩
        · left
          simp [extractMethodName, hdata, splitMethod, hsm, hlen]
    · left
      simp [extractMethodName, hdata, hc]
